import Mathlib

set_option maxRecDepth 100000

/-!
Verification of the TypeRepresentation repository
(`src/TypeRepresentation/Types.h`): a type/aggregate registry with a
recursive layout-resolution algorithm.

The C++ header is shallowly embedded below.  Conventions:

* `std::unordered_map<K, V>` is modelled as an association list
  `List (K × V)`: `mapFind` is `find`, `mapInsert` is `insert` (which,
  as in `std::unordered_map`, does nothing when the key is present),
  `mapAssign` is `operator[] = v`, `mapIndex` is a *reading* use of
  `operator[]`, which default-constructs (to `0`) and inserts a missing
  entry and therefore may mutate the map.
* C++ `int` is modelled as `Int`; `/` and `%` on C++ ints truncate
  toward zero, which is `Int.tdiv` / `Int.tmod`.
* The code is built for a 64-bit target (the header comes from an x64
  debugger), so `sizeof(void*) = 8`.
* `getSizeof(type, int* alignment, depth)` returns the size and writes
  the trailing padding through `alignment`; it is modelled as a function
  to a pair `(size, pad)`.  Its recursion increases `depth` up to the
  hard cap `100`; the model recurses on the fuel `100 - depth`, which
  is a faithful rendering: a call at `depth ≥ 100` has fuel `0` and
  returns `(0, 0)` exactly as the C++ guard does.
* Each mutating member function of `TypeManager` becomes a function
  `TypeManager → … → Bool × TypeManager` returning the C++ `bool`
  result together with the post state.
-/

namespace Types

/-- The `enum Primitive` from the source. -/
inductive Primitive where
  | Int8 | Uint8 | Int16 | Uint16 | Int32 | Uint32 | Int64 | Uint64
  | Dsint | Duint | Pointer | Float | Double
deriving DecidableEq, Repr

/-- The `sizeof(void*)` in bytes on the 64-bit builds this header targets. -/
def sizeofVoidPtr : Int := 8

/-- The `struct Type` from the source (renamed: `Type` is a Lean keyword). -/
structure TypeT where
  name : String
  primitive : Primitive
  bitsize : Int
  pointto : String
deriving DecidableEq, Repr

/-- The `struct Member` from the source. -/
structure Member where
  name : String
  type : String
  offset : Int
  arrsize : Int
deriving DecidableEq, Repr

/-- The `struct StructUnion` from the source. -/
structure StructUnion where
  isunion : Bool
  alignment : Int
  name : String
  members : List Member
deriving DecidableEq, Repr

/-- The `std::unordered_map::find`, as first match in an association list. -/
def mapFind {K V : Type} [BEq K] (m : List (K × V)) (k : K) : Option V :=
  (m.find? (fun p => p.1 == k)).map (fun p => p.2)

/-- The `mapContains` from the source (`map.find(k) != map.end()`). -/
def mapContains {K V : Type} [BEq K] (m : List (K × V)) (k : K) : Bool :=
  (mapFind m k).isSome

/-- The `std::unordered_map::insert({k, v})`: no effect when `k` is present. -/
def mapInsert {K V : Type} [BEq K] (m : List (K × V)) (k : K) (v : V) :
    List (K × V) :=
  if mapContains m k then m else (k, v) :: m

/-- The `map[k] = v`: insert-or-assign. -/
def mapAssign {K V : Type} [BEq K] (m : List (K × V)) (k : K) (v : V) :
    List (K × V) :=
  if mapContains m k then
    m.map (fun p => if p.1 == k then (k, v) else p)
  else (k, v) :: m

/-- A *reading* use of `map[k]` on a map with `Int` values: yields the
stored value, or default-constructs `0` and inserts it when `k` is
absent (so it may change the map). -/
def mapIndex {K : Type} [BEq K] (m : List (K × Int)) (k : K) :
    Int × List (K × Int) :=
  match mapFind m k with
  | some v => (v, m)
  | none => (0, (k, 0) :: m)

/-- Update the value stored at key `k` in place (`found->second` is
mutated through the iterator in the source). -/
def mapUpdate {K V : Type} [BEq K] (m : List (K × V)) (k : K) (f : V → V) :
    List (K × V) :=
  m.map (fun p => if p.1 == k then (p.1, f p.2) else p)

/-- The `struct TypeManager`: its private state. -/
structure TypeManager where
  primitives : List (String × Primitive)
  primitivesizes : List (Primitive × Int)
  types : List (String × TypeT)
  structs : List (String × StructUnion)
  laststruct : String
deriving DecidableEq, Repr

/-- The helper lambda `p` inside `setupPrimitives`: split `n` on commas,
insert every nonempty spelling under kind `pr`, then assign
`primitivesizes[pr] = bitsize`. -/
def registerPrims (tm : TypeManager) (n : String) (pr : Primitive)
    (bitsize : Int) : TypeManager :=
  let step := fun (acc : List (String × Primitive) × String) (ch : Char) =>
    if ch = ',' then
      ((if acc.2.length ≠ 0 then mapInsert acc.1 acc.2 pr else acc.1), "")
    else (acc.1, acc.2.push ch)
  let r := n.data.foldl step (tm.primitives, "")
  let prims := if r.2.length ≠ 0 then mapInsert r.1 r.2 pr else r.1
  { tm with
    primitives := prims
    primitivesizes := mapAssign tm.primitivesizes pr bitsize }

/-- The `setupPrimitives` from the source.  The bit sizes are the
`sizeof(...) * 8` values of the 64-bit target: `char`/`unsigned char`
are 1 byte, `short`/`unsigned short` 2, `int`/`unsigned int` 4,
`long long`/`unsigned long long` 8, `void*` 8, `float` 4, `double` 8.
Note that the `uint16` spellings are registered under kind `Int16`
(line 209 of the source), so no `primitivesizes` entry is ever created
for kind `Uint16`. -/
def setupPrimitives (tm : TypeManager) : TypeManager :=
  let tm := registerPrims tm "int8_t,int8,char,byte,bool,signed char" .Int8 8
  let tm := registerPrims tm "uint8_t,uint8,uchar,unsigned char,ubyte" .Uint8 8
  let tm := registerPrims tm "int16_t,int16,wchar_t,char16_t,short" .Int16 16
  let tm := registerPrims tm "uint16_t,uint16,ushort,unsigned short" .Int16 16
  let tm := registerPrims tm "int32_t,int32,int,long" .Int32 32
  let tm := registerPrims tm "uint32_t,uint32,unsigned int,unsigned long" .Uint32 32
  let tm := registerPrims tm "int64_t,int64,long long" .Int64 64
  let tm := registerPrims tm "uint64_t,uint64,unsigned long long" .Uint64 64
  let tm := registerPrims tm "dsint" .Dsint 64
  let tm := registerPrims tm "duint,size_t" .Duint 64
  let tm := registerPrims tm "ptr,void*" .Pointer 64
  let tm := registerPrims tm "float" .Float 32
  let tm := registerPrims tm "double" .Double 64
  tm

/-- The `TypeManager()` constructor: an empty state, then
`setupPrimitives()`. -/
def TypeManager.new : TypeManager :=
  setupPrimitives
    { primitives := []
      primitivesizes := []
      types := []
      structs := []
      laststruct := "" }

/-- The `isDefined` from the source. -/
def TypeManager.isDefined (tm : TypeManager) (id : String) : Bool :=
  mapContains tm.primitives id || mapContains tm.types id ||
    mapContains tm.structs id

/-- The `bool AddType(const Type & t)` from the source. -/
def TypeManager.AddTypeRecord (tm : TypeManager) (t : TypeT) :
    Bool × TypeManager :=
  if tm.isDefined t.name then (false, tm)
  else (true, { tm with types := mapInsert tm.types t.name t })

/-- The `bool AddType(name, primitive, bitsize = 0, pointto = "")` from the
source.  `primitivesizes[primitive]` uses `operator[]`, which inserts a
default `0` entry when the kind has no recorded size. -/
def TypeManager.AddType (tm : TypeManager) (name : String)
    (primitive : Primitive) (bitsize : Int) (pointto : String) :
    Bool × TypeManager :=
  if tm.isDefined name then (false, tm)
  else
    let pr := mapIndex tm.primitivesizes primitive
    let tm := { tm with primitivesizes := pr.2 }
    let primsize := pr.1
    if bitsize ≤ 0 then
      tm.AddTypeRecord
        { name := name, primitive := primitive, bitsize := primsize,
          pointto := pointto }
    else if bitsize > primsize then (false, tm)
    else
      tm.AddTypeRecord
        { name := name, primitive := primitive, bitsize := bitsize,
          pointto := pointto }

/-- The `bool AddType(const std::string & name, const std::string & primitive)`
from the source: resolve the spelling first. -/
def TypeManager.AddTypeSpelling (tm : TypeManager) (name : String)
    (primitive : String) : Bool × TypeManager :=
  match mapFind tm.primitives primitive with
  | none => (false, tm)
  | some pr => tm.AddType name pr 0 ""

/-- The `bool AddStruct(const StructUnion & s)` from the source.  Note that
`laststruct` is assigned *before* the duplicate-name check. -/
def TypeManager.AddStructRecord (tm : TypeManager) (s : StructUnion) :
    Bool × TypeManager :=
  let tm := { tm with laststruct := s.name }
  if tm.isDefined s.name then (false, tm)
  else (true, { tm with structs := mapInsert tm.structs s.name s })

/-- The `bool AddStruct(name, alignment = 0)` from the source: the
`StructUnion` field initializers give `isunion = false` and
`alignment = sizeof(void*)`, and `alignment` is overridden only when the
argument is positive. -/
def TypeManager.AddStruct (tm : TypeManager) (name : String)
    (alignment : Int) : Bool × TypeManager :=
  tm.AddStructRecord
    { isunion := false
      alignment := if alignment > 0 then alignment else sizeofVoidPtr
      name := name
      members := [] }

/-- The `bool AddUnion(const StructUnion & u)` from the source. -/
def TypeManager.AddUnionRecord (tm : TypeManager) (u : StructUnion) :
    Bool × TypeManager :=
  let tm := { tm with laststruct := u.name }
  if tm.isDefined u.name then (false, tm)
  else (true, { tm with structs := mapInsert tm.structs u.name u })

/-- The `bool AddUnion(name, alignment = 0)` from the source. -/
def TypeManager.AddUnion (tm : TypeManager) (name : String)
    (alignment : Int) : Bool × TypeManager :=
  tm.AddUnionRecord
    { isunion := true
      alignment := if alignment > 0 then alignment else sizeofVoidPtr
      name := name
      members := [] }

/-- The union loop of `getSizeof`, applied to the already-resolved
member sizes (`getSizeof(member.type, nullptr, depth + 1) *
(member.arrsize ? member.arrsize : 1)` for each member, in order):
running maximum with an early `return 0` on a zero member size. -/
def unionLoop : List Int → Int → Int
  | [], size => size
  | ms :: rest, size =>
    if ms = 0 then 0
    else unionLoop rest (if ms > size then ms else size)

/-- The `int getSizeof(const std::string & type, int* alignment, int depth)`
from the source, with the recursion measured by the remaining fuel
`100 - depth`; the result pair is `(size, *alignment)`.  `fuel = 0` is
the `depth >= 100` guard.  The early `return 0` cases inside the
aggregate branch fall through to the alignment rounding here with
`size = 0`, which returns the identical `(0, 0)` because `0 % a = 0`.
(`primitivesizes[foundP->second]` is `operator[]` in the source, but
every spelling in `primitives` has its kind's size assigned by the same
`setupPrimitives` call, so the read never inserts; it is modelled as a
defaulted lookup.) -/
def TypeManager.getSizeofAux (tm : TypeManager) : Nat → String → Int × Int
  | 0, _ => (0, 0)
  | Nat.succ fuel, type =>
    match mapFind tm.primitives type with
    | some pr => (Int.tdiv ((mapFind tm.primitivesizes pr).getD 0) 8, 0)
    | none =>
      match mapFind tm.types type with
      | some t =>
        let bitsize := t.bitsize
        let md := Int.tmod bitsize 8
        let bitsize := if md ≠ 0 then bitsize + (8 - md) else bitsize
        (Int.tdiv bitsize 8, 0)
      | none =>
        match mapFind tm.structs type with
        | none => (0, 0)
        | some s =>
          if s.members = [] then (0, 0)
          else
            let size :=
              if s.isunion then
                unionLoop
                  (s.members.map (fun m =>
                    (tm.getSizeofAux fuel m.type).1 *
                      (if m.arrsize ≠ 0 then m.arrsize else 1))) 0
              else
                match s.members.getLast? with
                | none => 0
                | some last =>
                  let lastsize :=
                    (tm.getSizeofAux fuel last.type).1 *
                      (if last.arrsize ≠ 0 then last.arrsize else 1)
                  if lastsize = 0 then 0 else last.offset + lastsize
            let md := Int.tmod size s.alignment
            if md ≠ 0 then (size + (s.alignment - md), s.alignment - md)
            else (size, 0)

/-- The `getSizeof` at a given recursion depth: fuel is `100 - depth`, so a
call at `depth ≥ 100` returns `(0, 0)` and a recursive call at
`depth + 1` runs with one unit of fuel less. -/
def TypeManager.getSizeof (tm : TypeManager) (type : String) (depth : Nat) :
    Int × Int :=
  tm.getSizeofAux (100 - depth) type

/-- The `int Sizeof(const std::string & type)` from the source. -/
def TypeManager.Sizeof (tm : TypeManager) (type : String) : Int :=
  (tm.getSizeof type 0).1

/-- The `bool AddMember(parent, name, type, offset = -1, arrsize = 0)` from
the source. -/
def TypeManager.AddMember (tm : TypeManager) (parent name type : String)
    (offset arrsize : Int) : Bool × TypeManager :=
  match mapFind tm.structs parent with
  | none => (false, tm)
  | some s =>
    if arrsize < 0 ∨ tm.isDefined type = false then (false, tm)
    else if s.members.any (fun member => member.name == name) then
      (false, tm)
    else
      if offset < 0 then
        let r := tm.getSizeof parent 0
        if s.members ≠ [] ∧ r.1 = 0 then (false, tm)
        else
          let typesize := tm.Sizeof type
          let moff := if r.2 ≠ 0 ∧ typesize ≤ r.2 then r.1 - r.2 else r.1
          (true,
            { tm with
              structs := mapUpdate tm.structs parent (fun s2 =>
                { s2 with members := s2.members ++
                  [{ name := name, type := type, offset := moff,
                     arrsize := arrsize }] }) })
      else
        (true,
          { tm with
            structs := mapUpdate tm.structs parent (fun s2 =>
              { s2 with members := s2.members ++
                [{ name := name, type := type, offset := offset,
                   arrsize := arrsize }] }) })

/-- The `bool AddMember(const std::string & parent, const Member & member)`
from the source: append verbatim, checking only that the parent
exists. -/
def TypeManager.AddMemberRecord (tm : TypeManager) (parent : String)
    (member : Member) : Bool × TypeManager :=
  match mapFind tm.structs parent with
  | none => (false, tm)
  | some _ =>
    (true,
      { tm with
        structs := mapUpdate tm.structs parent (fun s =>
          { s with members := s.members ++ [member] }) })

/-- The `bool AppendMember(name, type, offset = -1, arrsize = 0)` from the
source: `AddMember` on the `laststruct` binding. -/
def TypeManager.AppendMember (tm : TypeManager) (name type : String)
    (offset arrsize : Int) : Bool × TypeManager :=
  tm.AddMember tm.laststruct name type offset arrsize

/-! ### Spec-side definition used for the union-size comparison -/

/-- Modelled from the spec's words, for comparison with `getSizeof`
(spec §3: "Union size = max over members of (resolved member size ×
max(1, array count))", and §4.4 step 4: "Round `size` up to the next
multiple of the aggregate's alignment"): the maximum over the members of
the resolved member size times `max 1 arrayCount`, rounded up to the
next multiple of the union's alignment. -/
def specUnionSize (tm : TypeManager) (u : StructUnion) : Int :=
  let raw := (u.members.map (fun m => tm.Sizeof m.type * max 1 m.arrsize)).foldl max 0
  if raw % u.alignment = 0 then raw
  else raw + (u.alignment - raw % u.alignment)

/-! ### Concrete registry states used by the claims -/

/-- A union `U` of `a:int8` and `b:int32`, default alignment
(`sizeof(void*) = 8`), members added in that order. -/
def unionDefaultAB : TypeManager :=
  ((((TypeManager.new.AddUnion "U" 0).2.AddMember "U" "a" "int8" (-1) 0).2
    ).AddMember "U" "b" "int32" (-1) 0).2

/-- The same union with the two members declared in the other order. -/
def unionDefaultBA : TypeManager :=
  ((((TypeManager.new.AddUnion "U" 0).2.AddMember "U" "b" "int32" (-1) 0).2
    ).AddMember "U" "a" "int8" (-1) 0).2

/-- A union `U` of `a:int8` and `b:int32` created with alignment 4. -/
def unionAlign4AB : TypeManager :=
  ((((TypeManager.new.AddUnion "U" 4).2.AddMember "U" "a" "int8" (-1) 0).2
    ).AddMember "U" "b" "int32" (-1) 0).2

/-- The alignment-4 union with the members in the other order. -/
def unionAlign4BA : TypeManager :=
  ((((TypeManager.new.AddUnion "U" 4).2.AddMember "U" "b" "int32" (-1) 0).2
    ).AddMember "U" "a" "int8" (-1) 0).2

/-- A struct `S` with alignment 8 and auto-offset members `a:int32` then
`b:int64` (the P4 packing example). -/
def packedStruct : TypeManager :=
  ((((TypeManager.new.AddStruct "S" 8).2.AddMember "S" "a" "int32" (-1) 0).2
    ).AddMember "S" "b" "int64" (-1) 0).2

/-- A struct `S` that directly contains a member of its own type. -/
def cyclicStruct : TypeManager :=
  ((TypeManager.new.AddStruct "S" 0).2.AddMember "S" "m" "S" (-1) 0).2

/-- A registry holding one struct `A` (so `laststruct = "A"`). -/
def structA : TypeManager :=
  (TypeManager.new.AddStruct "A" 0).2

/-- The `structA`, then a second struct `B`, then a *failed* `AddStruct "A"`
(duplicate name): `laststruct` is rebound to `"A"` by the failed call. -/
def structABdup : TypeManager :=
  (((structA.AddStruct "B" 0).2).AddStruct "A" 0).2

/-- A registry with a struct `S` holding one member `a:int8`, used to
exercise the unvalidated `AddMember(parent, Member)` overload. -/
def structSa : TypeManager :=
  ((TypeManager.new.AddStruct "S" 0).2.AddMemberRecord "S"
    { name := "a", type := "int8", offset := 0, arrsize := 0 }).2

/-- A `Member` record that would fail every `AddMember` validation:
duplicate name `a`, undefined type, negative offset, negative array
count. -/
def badMember : Member :=
  { name := "a", type := "nosuchtype", offset := -7, arrsize := -3 }

/-- An alias of kind `Int32` narrowed to 16 bits. -/
def narrow16 : TypeManager :=
  (TypeManager.new.AddType "al16" .Int32 16 "").2

/-- An alias of kind `Uint16` created with the default bit size. -/
def uint16Alias : TypeManager :=
  (TypeManager.new.AddType "u16a" .Uint16 0 "").2

/-! ### Helper lemmas about the association-list operations -/

theorem mapFind_eq_none {K V : Type} [BEq K] {m : List (K × V)} {k : K}
    (h : mapContains m k = false) : mapFind m k = none := by
  cases hm : mapFind m k with
  | none => rfl
  | some v => rw [mapContains, hm] at h; simp at h

theorem mapFind_cons_pos {K V : Type} [BEq K] (p : K × V) (m : List (K × V))
    (k : K) (h : (p.1 == k) = true) : mapFind (p :: m) k = some p.2 := by
  simp [mapFind, List.find?, h]

theorem mapFind_cons_neg {K V : Type} [BEq K] (p : K × V) (m : List (K × V))
    (k : K) (h : (p.1 == k) = false) : mapFind (p :: m) k = mapFind m k := by
  simp [mapFind, List.find?, h]

theorem mapFind_insert_self {K V : Type} [BEq K] [LawfulBEq K]
    {m : List (K × V)} {k : K} (v : V) (h : mapContains m k = false) :
    mapFind (mapInsert m k v) k = some v := by
  rw [mapInsert, if_neg (by simp [h])]
  simp [mapFind, List.find?]

theorem mapFind_mapUpdate {K V : Type} [BEq K] [LawfulBEq K]
    (m : List (K × V)) (k : K) (f : V → V) :
    mapFind (mapUpdate m k f) k = (mapFind m k).map f := by
  induction m with
  | nil => rfl
  | cons p m ih =>
    by_cases h : (p.1 == k) = true
    · rw [mapUpdate, List.map_cons, if_pos h,
        mapFind_cons_pos (p.1, f p.2) _ _ h, mapFind_cons_pos p _ _ h]
      rfl
    · rw [Bool.not_eq_true] at h
      rw [mapUpdate, List.map_cons, if_neg (by simp [h]),
        mapFind_cons_neg _ _ _ h, mapFind_cons_neg _ _ _ h]
      exact ih

theorem mapIndex_fst {K : Type} [BEq K] (m : List (K × Int)) (k : K) :
    (mapIndex m k).1 = (mapFind m k).getD 0 := by
  rw [mapIndex]; cases mapFind m k <;> rfl

theorem mapIndex_getD {K : Type} [BEq K] [LawfulBEq K]
    (m : List (K × Int)) (k j : K) :
    (mapFind (mapIndex m k).2 j).getD 0 = (mapFind m j).getD 0 := by
  rw [mapIndex]
  cases h : mapFind m k with
  | some v => rfl
  | none =>
    by_cases hj : (k == j) = true
    · have hkj : k = j := by simpa using hj
      subst hkj
      rw [mapFind_cons_pos _ _ _ (by simp), h]
      rfl
    · rw [Bool.not_eq_true] at hj
      rw [mapFind_cons_neg _ _ _ hj]

/-! ### Helper lemmas about the layout engine -/

theorem unionLoop_eq_foldl (l : List Int) (acc : Int)
    (h : ∀ x ∈ l, x ≠ 0) : unionLoop l acc = l.foldl max acc := by
  induction l generalizing acc with
  | nil => rfl
  | cons x l ih =>
    rw [unionLoop, if_neg (h x (List.mem_cons_self x l)), List.foldl_cons]
    have hx : (if x > acc then x else acc) = max acc x := by
      rw [max_def]; split_ifs <;> omega
    rw [hx]
    exact ih _ (fun y hy => h y (List.mem_cons_of_mem x hy))

theorem foldl_max_nonneg (l : List Int) (acc : Int) (h : 0 ≤ acc) :
    0 ≤ l.foldl max acc := by
  induction l generalizing acc with
  | nil => exact h
  | cons x l ih => exact ih _ (le_trans h (le_max_left acc x))

theorem getSizeofAux_scalar (tm : TypeManager) (t : String) (f g : Nat)
    (h : mapContains tm.primitives t = true ∨ mapContains tm.types t = true) :
    tm.getSizeofAux (f + 1) t = tm.getSizeofAux (g + 1) t := by
  cases hp : mapFind tm.primitives t with
  | some pr => simp only [TypeManager.getSizeofAux, hp]
  | none =>
    cases ht : mapFind tm.types t with
    | some ty => simp only [TypeManager.getSizeofAux, hp, ht]
    | none =>
      exfalso
      rcases h with h | h <;> rw [mapContains] at h
      · rw [hp] at h; simp at h
      · rw [ht] at h; simp at h

theorem Sizeof_eq_aux (tm : TypeManager) (t : String) :
    tm.Sizeof t = (tm.getSizeofAux 100 t).1 := rfl

/-- One unfolding step of `getSizeofAux` on an aggregate name. -/
theorem getSizeofAux_struct (tm : TypeManager) (fuel : Nat) (nam : String)
    (s : StructUnion)
    (h1 : mapFind tm.primitives nam = none)
    (h2 : mapFind tm.types nam = none)
    (h3 : mapFind tm.structs nam = some s) :
    tm.getSizeofAux (Nat.succ fuel) nam =
      (if s.members = [] then ((0, 0) : Int × Int)
       else
        let size :=
          if s.isunion then
            unionLoop
              (s.members.map (fun m =>
                (tm.getSizeofAux fuel m.type).1 *
                  (if m.arrsize ≠ 0 then m.arrsize else 1))) 0
          else
            match s.members.getLast? with
            | none => 0
            | some last =>
              let lastsize :=
                (tm.getSizeofAux fuel last.type).1 *
                  (if last.arrsize ≠ 0 then last.arrsize else 1)
              if lastsize = 0 then 0 else last.offset + lastsize
        let md := Int.tmod size s.alignment
        if md ≠ 0 then (size + (s.alignment - md), s.alignment - md)
        else (size, 0)) := by
  rw [TypeManager.getSizeofAux, h1, h2, h3]

theorem isDefined_false_parts (tm : TypeManager) (id : String)
    (h : tm.isDefined id = false) :
    mapContains tm.primitives id = false ∧
    mapContains tm.types id = false ∧
    mapContains tm.structs id = false := by
  rw [TypeManager.isDefined] at h
  simp only [Bool.or_eq_false_iff] at h
  exact ⟨h.1.1, h.1.2, h.2⟩

/-- A closed-form description of `AddType`: the three outcomes (duplicate
name; widening rejected; stored), with the `operator[]` effect on
`primitivesizes` made explicit. -/
theorem addType_spec (tm : TypeManager) (name : String) (pr : Primitive)
    (b : Int) (pt : String) :
    tm.AddType name pr b pt =
      if tm.isDefined name = true then (false, tm)
      else if b ≤ 0 then
        (true, { tm with
          primitivesizes := (mapIndex tm.primitivesizes pr).2,
          types := mapInsert tm.types name
            { name := name, primitive := pr,
              bitsize := (mapFind tm.primitivesizes pr).getD 0,
              pointto := pt } })
      else if b > (mapFind tm.primitivesizes pr).getD 0 then
        (false, { tm with
          primitivesizes := (mapIndex tm.primitivesizes pr).2 })
      else
        (true, { tm with
          primitivesizes := (mapIndex tm.primitivesizes pr).2,
          types := mapInsert tm.types name
            { name := name, primitive := pr, bitsize := b,
              pointto := pt } }) := by
  rw [TypeManager.AddType]
  by_cases hd : tm.isDefined name = true
  · rw [if_pos hd, if_pos hd]
  · rw [if_neg hd, if_neg hd]
    have hfst := mapIndex_fst tm.primitivesizes pr
    have hiso : TypeManager.isDefined
        { tm with primitivesizes := (mapIndex tm.primitivesizes pr).2 } name =
        tm.isDefined name := rfl
    by_cases hb : b ≤ (0 : Int)
    · rw [if_pos hb, if_pos hb, TypeManager.AddTypeRecord, hiso, if_neg hd,
        hfst]
    · rw [if_neg hb, if_neg hb, hfst]
      by_cases hgt : b > (mapFind tm.primitivesizes pr).getD 0
      · rw [if_pos hgt, if_pos hgt]
      · rw [if_neg hgt, if_neg hgt, TypeManager.AddTypeRecord, hiso,
          if_neg hd]

/-- A closed-form description of the validating `AddMember` when the
parent aggregate exists. -/
theorem addMember_spec (tm : TypeManager) (p n t : String) (o a : Int)
    (s : StructUnion) (hf : mapFind tm.structs p = some s) :
    tm.AddMember p n t o a =
      if a < 0 ∨ tm.isDefined t = false then (false, tm)
      else if (s.members.any fun member => member.name == n) = true then
        (false, tm)
      else if o < 0 then
        (if s.members ≠ [] ∧ (tm.getSizeof p 0).1 = 0 then (false, tm)
         else
          (true, { tm with structs := mapUpdate tm.structs p (fun s2 =>
            { s2 with members := s2.members ++
              [{ name := n, type := t,
                 offset :=
                   if (tm.getSizeof p 0).2 ≠ 0 ∧
                       tm.Sizeof t ≤ (tm.getSizeof p 0).2 then
                     (tm.getSizeof p 0).1 - (tm.getSizeof p 0).2
                   else (tm.getSizeof p 0).1,
                 arrsize := a }] }) }))
      else
        (true, { tm with structs := mapUpdate tm.structs p (fun s2 =>
          { s2 with members := s2.members ++
            [{ name := n, type := t, offset := o, arrsize := a }] }) }) := by
  rw [TypeManager.AddMember, hf]

/-- Frame property of the validating `AddMember`: a failed call returns
the state unchanged. -/
theorem addMember_fail_frame (tm : TypeManager) (p n t : String)
    (o a : Int) (h : (tm.AddMember p n t o a).1 = false) :
    (tm.AddMember p n t o a).2 = tm := by
  cases hf : mapFind tm.structs p with
  | none => rw [TypeManager.AddMember, hf]
  | some s =>
    rw [addMember_spec tm p n t o a s hf] at h ⊢
    split_ifs at h ⊢ <;> rfl

/-! ### The claims -/

/-- Claim C1, counterexample: the union `U` of `a:int8` and `b:int32`
(created with the default pointer-size alignment 8) has `Sizeof = 8`,
not 4, in either member order: `getSizeof` rounds a union's size up to
the union's alignment, so the size is not plainly the maximum over the
members of (resolved member size × max(1, array count)). -/
theorem claim_C1_counterexample :
    unionDefaultAB.Sizeof "U" = 8 ∧ unionDefaultBA.Sizeof "U" = 8 ∧
    ¬ unionDefaultAB.Sizeof "U" = 4 := by decide

/-- Claim C4: every `Resolve`/`Sizeof` call terminates (the model is a
total function on the fuel `100 - depth`): a call at `depth ≥ 100`
returns size 0 (and pad 0), and `Sizeof` of a struct that directly
contains a member of its own type returns 0 instead of failing to
terminate. -/
theorem claim_C4 :
    (∀ (tm : TypeManager) (t : String) (depth : Nat), 100 ≤ depth →
      tm.getSizeof t depth = (0, 0)) ∧
    cyclicStruct.Sizeof "S" = 0 := by
  constructor
  · intro tm t depth h
    rw [TypeManager.getSizeof, Nat.sub_eq_zero_of_le h]
    rfl
  · decide

/-- Witness for C4 at a concrete input: a call at depth 100 returns
`(0, 0)`. -/
theorem claim_C4_witness : TypeManager.new.getSizeof "int32" 100 = (0, 0) :=
  claim_C4.1 TypeManager.new "int32" 100 (by decide)

/-- Claim C7: `primitivesizes` has no entry for kind `Uint16` (the
`uint16` spellings are registered under `Int16`), so
`AddType(name, Uint16, b)` fails for every `b > 0` (the width check
compares against the defaulted size 0), while the default bit size
stores an alias with `bitsize = 0` whose `Sizeof` is 0. -/
theorem claim_C7 :
    (∀ (tm : TypeManager) (name : String) (b : Int) (pointto : String),
      mapFind tm.primitivesizes Primitive.Uint16 = none → 0 < b →
      (tm.AddType name Primitive.Uint16 b pointto).1 = false) ∧
    mapFind TypeManager.new.primitivesizes Primitive.Uint16 = none ∧
    mapFind TypeManager.new.primitives "uint16_t" = some Primitive.Int16 ∧
    mapFind TypeManager.new.primitives "uint16" = some Primitive.Int16 ∧
    mapFind TypeManager.new.primitives "ushort" = some Primitive.Int16 ∧
    mapFind TypeManager.new.primitives "unsigned short" = some Primitive.Int16 ∧
    (TypeManager.new.AddType "u16a" Primitive.Uint16 0 "").1 = true ∧
    (mapFind uint16Alias.types "u16a").map (fun t => t.bitsize) = some 0 ∧
    uint16Alias.Sizeof "u16a" = 0 := by
  refine ⟨?_, by decide, by decide, by decide, by decide, by decide,
    by decide, by decide, by decide⟩
  intro tm name b pointto hnone hb
  rw [TypeManager.AddType]
  by_cases hd : tm.isDefined name = true
  · rw [if_pos hd]
  · rw [if_neg hd]
    simp only [mapIndex, hnone]
    rw [if_neg (show ¬ b ≤ (0 : Int) by omega), if_pos hb]

/-- Witness for C7 at a concrete input: `AddType` with kind `Uint16` and
bit size 5 fails on a fresh registry. -/
theorem claim_C7_witness :
    (TypeManager.new.AddType "z" Primitive.Uint16 5 "").1 = false :=
  claim_C7.1 TypeManager.new "z" 5 "" (by decide) (by decide)

/-- Claim C8: `Sizeof` of a name that is not a primitive spelling, not a
registered type, and not a registered aggregate with at least one member
returns 0. -/
theorem claim_C8 :
    ∀ (tm : TypeManager) (name : String),
      mapContains tm.primitives name = false →
      mapContains tm.types name = false →
      (mapContains tm.structs name = false ∨
        ∃ s, mapFind tm.structs name = some s ∧ s.members = []) →
      tm.Sizeof name = 0 := by
  intro tm name hp ht hs
  have h1 := mapFind_eq_none hp
  have h2 := mapFind_eq_none ht
  rw [Sizeof_eq_aux, show (100 : Nat) = 99 + 1 from rfl]
  rcases hs with hs | ⟨s, h3, hm⟩
  · have h3 := mapFind_eq_none hs
    simp [TypeManager.getSizeofAux, h1, h2, h3]
  · simp [TypeManager.getSizeofAux, h1, h2, h3, hm]

/-- Witness for C8 at concrete inputs: an undefined name, and a struct
registered with zero members, both have `Sizeof = 0`. -/
theorem claim_C8_witness :
    TypeManager.new.Sizeof "nosuchname" = 0 ∧
    (TypeManager.new.AddStruct "E" 0).2.Sizeof "E" = 0 :=
  ⟨claim_C8 TypeManager.new "nosuchname" (by decide) (by decide)
      (Or.inl (by decide)),
   claim_C8 (TypeManager.new.AddStruct "E" 0).2 "E" (by decide) (by decide)
      (Or.inr ⟨{ isunion := false, alignment := 8, name := "E", members := [] },
        by decide, rfl⟩)⟩

/-- Claim C9: `AddStruct`/`AddUnion` rebind `laststruct` to the
requested name even when creation fails on a duplicate name, and
`AppendMember` simply calls `AddMember` on `laststruct` — so after a
failed duplicate creation, `AppendMember` targets the previously
existing aggregate of that name (shown concretely: after registering
`A` then `B`, a failed `AddStruct "A"` makes `AppendMember` add the
member `x` to the old aggregate `A`). -/
theorem claim_C9 :
    (∀ (tm : TypeManager) (name : String) (alignment : Int),
      (tm.AddStruct name alignment).2.laststruct = name ∧
      (tm.AddUnion name alignment).2.laststruct = name) ∧
    (∀ (tm : TypeManager) (name : String) (alignment : Int),
      tm.isDefined name = true →
      (tm.AddStruct name alignment).1 = false ∧
      (tm.AddStruct name alignment).2 = { tm with laststruct := name } ∧
      (tm.AddUnion name alignment).1 = false ∧
      (tm.AddUnion name alignment).2 = { tm with laststruct := name }) ∧
    (∀ (tm : TypeManager) (name type : String) (offset arrsize : Int),
      tm.AppendMember name type offset arrsize =
        tm.AddMember tm.laststruct name type offset arrsize) ∧
    (structABdup.AppendMember "x" "int8" (-1) 0).1 = true ∧
    (mapFind (structABdup.AppendMember "x" "int8" (-1) 0).2.structs "A").map
      (fun s => s.members.map (fun m => m.name)) = some ["x"] := by
  refine ⟨?_, ?_, ?_, by decide, by decide⟩
  · intro tm name alignment
    constructor <;>
      · simp only [TypeManager.AddStruct, TypeManager.AddStructRecord,
          TypeManager.AddUnion, TypeManager.AddUnionRecord]
        split_ifs <;> rfl
  · intro tm name alignment h
    refine ⟨?_, ?_, ?_, ?_⟩ <;>
      simp [TypeManager.AddStruct, TypeManager.AddStructRecord,
        TypeManager.AddUnion, TypeManager.AddUnionRecord,
        show TypeManager.isDefined { tm with laststruct := name } name = true from h]
  · intro tm name type offset arrsize
    rfl

/-- Witness for C9 at a concrete input: `AddUnion "int"` on a registry
holding struct `A` fails (duplicate of a primitive spelling) yet rebinds
`laststruct` to `"int"`. -/
theorem claim_C9_witness :
    (structA.AddStruct "int" 0).1 = false ∧
    (structA.AddStruct "int" 0).2 = { structA with laststruct := "int" } ∧
    (structA.AddUnion "int" 0).1 = false ∧
    (structA.AddUnion "int" 0).2 = { structA with laststruct := "int" } :=
  claim_C9.2.1 structA "int" 0 (by decide)

/-- Claim C10: the `AddMember` overload taking a `Member` record
validates nothing but the parent's existence: it succeeds and appends
the member verbatim even when the member duplicates an existing name,
references an undefined type, and has negative offset and array count.
When the parent is unknown it fails with no state change. -/
theorem claim_C10 :
    (∀ (tm : TypeManager) (parent : String) (member : Member)
        (s : StructUnion),
      mapFind tm.structs parent = some s →
      (tm.AddMemberRecord parent member).1 = true ∧
      mapFind (tm.AddMemberRecord parent member).2.structs parent =
        some { s with members := s.members ++ [member] }) ∧
    (∀ (tm : TypeManager) (parent : String) (member : Member),
      mapFind tm.structs parent = none →
      tm.AddMemberRecord parent member = (false, tm)) ∧
    (structSa.AddMemberRecord "S" badMember).1 = true ∧
    mapFind (structSa.AddMemberRecord "S" badMember).2.structs "S" =
      some { isunion := false, alignment := 8, name := "S",
             members := [{ name := "a", type := "int8", offset := 0,
                           arrsize := 0 },
                         badMember] } := by
  refine ⟨?_, ?_, by decide, by decide⟩
  · intro tm parent member s h
    rw [TypeManager.AddMemberRecord, h]
    exact ⟨rfl, by simp [mapFind_mapUpdate, h]⟩
  · intro tm parent member h
    rw [TypeManager.AddMemberRecord, h]

/-- Claim C1 (amended): a union's size is the maximum over its members
of (resolved member size × max(1, array count)) *rounded up to the next
multiple of the union's alignment* (`specUnionSize`); hence the
`a:int8`/`b:int32` union yields `Sizeof = 4`, regardless of member
order, when created with alignment 4, while with the default
pointer-size alignment it yields 8 in both orders.  The general formula
is stated for a union whose name does not shadow a primitive or type,
whose scalar members are primitives or types with positive resolved
sizes and nonnegative array counts, and whose alignment is positive. -/
theorem claim_C1 :
    (∀ (tm : TypeManager) (nam : String) (s : StructUnion),
      mapFind tm.structs nam = some s →
      mapContains tm.primitives nam = false →
      mapContains tm.types nam = false →
      s.isunion = true →
      s.members ≠ [] →
      0 < s.alignment →
      (∀ m ∈ s.members,
        mapContains tm.primitives m.type = true ∨
        mapContains tm.types m.type = true) →
      (∀ m ∈ s.members, 0 ≤ m.arrsize) →
      (∀ m ∈ s.members, 0 < tm.Sizeof m.type) →
      tm.Sizeof nam = specUnionSize tm s) ∧
    unionAlign4AB.Sizeof "U" = 4 ∧ unionAlign4BA.Sizeof "U" = 4 ∧
    unionDefaultAB.Sizeof "U" = 8 ∧ unionDefaultBA.Sizeof "U" = 8 := by
  refine ⟨?_, by decide, by decide, by decide, by decide⟩
  intro tm nam s hfind hnp hnt hu hne halign hscal harr hpos
  have h1 := mapFind_eq_none hnp
  have h2 := mapFind_eq_none hnt
  rw [Sizeof_eq_aux, show (100 : Nat) = Nat.succ 99 from rfl,
    getSizeofAux_struct tm 99 nam s h1 h2 hfind]
  rw [if_neg hne, if_pos hu]
  have hmap : s.members.map (fun m =>
      (tm.getSizeofAux 99 m.type).1 *
        (if m.arrsize ≠ 0 then m.arrsize else 1)) =
      s.members.map (fun m => tm.Sizeof m.type * max 1 m.arrsize) := by
    apply List.map_congr_left
    intro m hm
    have hsz : (tm.getSizeofAux 99 m.type).1 = tm.Sizeof m.type := by
      rw [Sizeof_eq_aux, show (99 : Nat) = 98 + 1 from rfl,
        show (100 : Nat) = 99 + 1 from rfl,
        getSizeofAux_scalar tm m.type 98 99 (hscal m hm)]
    rw [hsz]
    have ha := harr m hm
    by_cases h0 : m.arrsize = 0
    · simp [h0]
    · rw [if_pos h0, max_eq_right (by omega : (1 : Int) ≤ m.arrsize)]
  rw [hmap]
  have hall : ∀ x ∈ s.members.map
      (fun m => tm.Sizeof m.type * max 1 m.arrsize), x ≠ 0 := by
    intro x hx
    rw [List.mem_map] at hx
    obtain ⟨m, hm, rfl⟩ := hx
    exact (mul_pos (hpos m hm)
      (lt_of_lt_of_le Int.zero_lt_one (le_max_left 1 m.arrsize))).ne'
  rw [unionLoop_eq_foldl _ _ hall]
  have hraw : 0 ≤ (s.members.map
      (fun m => tm.Sizeof m.type * max 1 m.arrsize)).foldl max 0 :=
    foldl_max_nonneg _ 0 le_rfl
  rw [specUnionSize]
  simp only [Int.tmod_eq_emod hraw (le_of_lt halign)]
  by_cases hz : ((s.members.map
      (fun m => tm.Sizeof m.type * max 1 m.arrsize)).foldl max 0) %
      s.alignment = 0
  · rw [if_neg (not_not_intro hz), if_pos hz]
  · rw [if_pos hz, if_neg hz]

/-- Witness for C1 (amended) at a concrete input: the alignment-4 union
of `a:int8` and `b:int32` satisfies the rounded-maximum formula. -/
theorem claim_C1_witness :
    unionAlign4AB.Sizeof "U" = specUnionSize unionAlign4AB
      { isunion := true, alignment := 4, name := "U",
        members := [{ name := "a", type := "int8", offset := 0,
                      arrsize := 0 },
                    { name := "b", type := "int32", offset := 4,
                      arrsize := 0 }] } :=
  claim_C1.1 unionAlign4AB "U"
    { isunion := true, alignment := 4, name := "U",
      members := [{ name := "a", type := "int8", offset := 0, arrsize := 0 },
                  { name := "b", type := "int32", offset := 4,
                    arrsize := 0 }] }
    (by decide) (by decide) (by decide) (by decide) (by decide) (by decide)
    (by decide) (by decide) (by decide)

/-- Claim C2, counterexample: a failed mutation does *not* always leave
the registry exactly as it was: `AddUnion "int"` on a registry holding
struct `A` fails (duplicate of a primitive spelling) yet changes the
state, rebinding `laststruct` to `"int"`. -/
theorem claim_C2_counterexample :
    (structA.AddUnion "int" 0).1 = false ∧
    ¬ (structA.AddUnion "int" 0).2 = structA ∧
    (structA.AddUnion "int" 0).2.laststruct = "int" := by decide

/-- Claim C2 (amended): a failed mutation leaves the `primitives`,
`types` and `structs` maps unchanged (so a duplicate-name definition has
no effect on the registered entities), but not the whole state:
`AddStruct`/`AddUnion` rebind `laststruct` to the requested name even on
failure, and a failed `AddType` may insert a defaulted 0 entry for the
requested kind into `primitivesizes` (invisible to lookups, which
default to 0).  Failed `AddMember`/`AppendMember` calls leave the state
exactly unchanged. -/
theorem claim_C2 :
    (∀ (tm : TypeManager) (t : TypeT),
      (tm.AddTypeRecord t).1 = false → (tm.AddTypeRecord t).2 = tm) ∧
    (∀ (tm : TypeManager) (name : String) (pr : Primitive) (b : Int)
        (pt : String),
      (tm.AddType name pr b pt).1 = false →
      (tm.AddType name pr b pt).2.primitives = tm.primitives ∧
      (tm.AddType name pr b pt).2.types = tm.types ∧
      (tm.AddType name pr b pt).2.structs = tm.structs ∧
      (tm.AddType name pr b pt).2.laststruct = tm.laststruct ∧
      ∀ k, (mapFind (tm.AddType name pr b pt).2.primitivesizes k).getD 0 =
        (mapFind tm.primitivesizes k).getD 0) ∧
    (∀ (tm : TypeManager) (name : String) (al : Int),
      (tm.AddStruct name al).1 = false →
      (tm.AddStruct name al).2 = { tm with laststruct := name }) ∧
    (∀ (tm : TypeManager) (name : String) (al : Int),
      (tm.AddUnion name al).1 = false →
      (tm.AddUnion name al).2 = { tm with laststruct := name }) ∧
    (∀ (tm : TypeManager) (p n t : String) (o a : Int),
      (tm.AddMember p n t o a).1 = false →
      (tm.AddMember p n t o a).2 = tm) ∧
    (∀ (tm : TypeManager) (n t : String) (o a : Int),
      (tm.AppendMember n t o a).1 = false →
      (tm.AppendMember n t o a).2 = tm) ∧
    (∀ (tm : TypeManager) (p : String) (mem : Member),
      (tm.AddMemberRecord p mem).1 = false →
      (tm.AddMemberRecord p mem).2 = tm) := by
  refine ⟨?_, ?_, ?_, ?_, addMember_fail_frame, ?_, ?_⟩
  · intro tm t h
    rw [TypeManager.AddTypeRecord] at h ⊢
    split_ifs at h ⊢
    rfl
  · intro tm name pr b pt h
    rw [addType_spec] at h ⊢
    split_ifs at h ⊢ <;>
      first
        | exact ⟨rfl, rfl, rfl, rfl, fun k => rfl⟩
        | exact ⟨rfl, rfl, rfl, rfl,
            fun k => mapIndex_getD tm.primitivesizes pr k⟩
  · intro tm name al h
    rw [TypeManager.AddStruct, TypeManager.AddStructRecord] at h ⊢
    split_ifs at h ⊢ <;> rfl
  · intro tm name al h
    rw [TypeManager.AddUnion, TypeManager.AddUnionRecord] at h ⊢
    split_ifs at h ⊢ <;> rfl
  · intro tm n t o a h
    exact addMember_fail_frame tm tm.laststruct n t o a h
  · intro tm p mem h
    rw [TypeManager.AddMemberRecord] at h ⊢
    cases hf : mapFind tm.structs p with
    | none => rfl
    | some s => rw [hf] at h; exact absurd h (by simp)

/-- Witness for C2 at concrete inputs: a failed duplicate `AddStruct`
leaves everything but `laststruct` unchanged, and a failed `AddMember`
on an unknown aggregate leaves the registry untouched. -/
theorem claim_C2_witness :
    (structA.AddStruct "int" 0).2 = { structA with laststruct := "int" } ∧
    (TypeManager.new.AddMember "nosuch" "a" "int8" (-1) 0).2 =
      TypeManager.new :=
  ⟨claim_C2.2.2.1 structA "int" 0 (by decide),
   claim_C2.2.2.2.2.1 TypeManager.new "nosuch" "a" "int8" (-1) 0 (by decide)⟩

/-- Claim C3: when `offset` is omitted (negative sentinel) and the call
succeeds, the appended member's offset is the aggregate's size computed
before insertion, pulled back by the reported trailing padding whenever
that padding is nonzero and the member's own resolved size is at most
the pad; concretely, the P4 struct (alignment 8, auto-offset `a:int32`
then `b:int64`) stores `a` at offset 0 and `b` at offset 8 and has
`Sizeof = 16`. -/
theorem claim_C3 :
    (∀ (tm : TypeManager) (p n t : String) (o a : Int) (s : StructUnion),
      mapFind tm.structs p = some s → o < 0 →
      (tm.AddMember p n t o a).1 = true →
      mapFind (tm.AddMember p n t o a).2.structs p =
        some { s with members := s.members ++
          [{ name := n, type := t,
             offset :=
               if (tm.getSizeof p 0).2 ≠ 0 ∧
                   tm.Sizeof t ≤ (tm.getSizeof p 0).2 then
                 (tm.getSizeof p 0).1 - (tm.getSizeof p 0).2
               else (tm.getSizeof p 0).1,
             arrsize := a }] }) ∧
    mapFind packedStruct.structs "S" =
      some { isunion := false, alignment := 8, name := "S",
             members := [{ name := "a", type := "int32", offset := 0,
                           arrsize := 0 },
                         { name := "b", type := "int64", offset := 8,
                           arrsize := 0 }] } ∧
    packedStruct.Sizeof "S" = 16 := by
  refine ⟨?_, by decide, by decide⟩
  intro tm p n t o a s hf ho hsucc
  rw [addMember_spec tm p n t o a s hf] at hsucc ⊢
  split_ifs at hsucc ⊢ <;>
    first
      | exact absurd ho (by assumption)
      | simp [mapFind_mapUpdate, hf]

/-- Witness for C3 at a concrete input: appending auto-offset `b:int64`
to the alignment-8 struct already holding `a:int32` packs `b` at the
computed offset (which evaluates to 8). -/
theorem claim_C3_witness :
    mapFind
      ((((TypeManager.new.AddStruct "S" 8).2).AddMember "S" "a" "int32"
          (-1) 0).2.AddMember "S" "b" "int64" (-1) 0).2.structs "S" =
      some { isunion := false, alignment := 8, name := "S",
             members := [{ name := "a", type := "int32", offset := 0,
                           arrsize := 0 },
                         { name := "b", type := "int64", offset := 8,
                           arrsize := 0 }] } := by
  have h := claim_C3.1
    (((TypeManager.new.AddStruct "S" 8).2).AddMember "S" "a" "int32"
      (-1) 0).2 "S" "b" "int64" (-1) 0
    { isunion := false, alignment := 8, name := "S",
      members := [{ name := "a", type := "int32", offset := 0,
                    arrsize := 0 }] }
    (by decide) (by decide) (by decide)
  exact h.trans (by decide)

/-- Claim C5: `AddType(name, kind, bitsize)` fails exactly when the name
is already defined or the requested bit size exceeds the kind's recorded
natural width (narrowing and the defaulting `bitsize ≤ 0` case are
accepted); on success the alias is stored with the narrowed (or natural)
bit size.  Concretely, an `Int32` alias with bit size 40 fails, one with
bit size 16 succeeds and its `Sizeof` is 2. -/
theorem claim_C5 :
    (∀ (tm : TypeManager) (name : String) (pr : Primitive) (b : Int)
        (pt : String),
      0 ≤ (mapFind tm.primitivesizes pr).getD 0 →
      (((tm.AddType name pr b pt).1 = false) ↔
        (tm.isDefined name = true ∨
          b > (mapFind tm.primitivesizes pr).getD 0)) ∧
      ((tm.AddType name pr b pt).1 = true →
        mapFind (tm.AddType name pr b pt).2.types name =
          some { name := name, primitive := pr,
                 bitsize :=
                   if b ≤ 0 then (mapFind tm.primitivesizes pr).getD 0
                   else b,
                 pointto := pt })) ∧
    (TypeManager.new.AddType "al40" Primitive.Int32 40 "").1 = false ∧
    (TypeManager.new.AddType "al16" Primitive.Int32 16 "").1 = true ∧
    narrow16.Sizeof "al16" = 2 := by
  refine ⟨?_, by decide, by decide, by decide⟩
  intro tm name pr b pt hw
  rw [addType_spec]
  by_cases h1 : tm.isDefined name = true
  · rw [if_pos h1]
    exact ⟨by simp [h1], fun h => absurd h (by simp)⟩
  · rw [if_neg h1]
    by_cases h2 : b ≤ (0 : Int)
    · rw [if_pos h2, if_pos h2]
      refine ⟨⟨fun hfalse => absurd hfalse (by simp), fun hor => ?_⟩, ?_⟩
      · exfalso
        rcases hor with hd | hgt
        · exact h1 hd
        · omega
      · intro _
        exact mapFind_insert_self _ (isDefined_false_parts tm name
          (by simpa using h1)).2.1
    · rw [if_neg h2, if_neg h2]
      by_cases h3 : b > (mapFind tm.primitivesizes pr).getD 0
      · rw [if_pos h3]
        exact ⟨by simp [h1, h3], fun h => absurd h (by simp)⟩
      · rw [if_neg h3]
        refine ⟨⟨fun hfalse => absurd hfalse (by simp), fun hor => ?_⟩, ?_⟩
        · exfalso
          rcases hor with hd | hgt
          · exact h1 hd
          · exact h3 hgt
        · intro _
          exact mapFind_insert_self _ (isDefined_false_parts tm name
            (by simpa using h1)).2.1

/-- Witness for C5 at a concrete input: on a fresh registry, an `Int32`
alias with bit size 40 fails because 40 exceeds the natural width 32. -/
theorem claim_C5_witness :
    ((TypeManager.new.AddType "al40" Primitive.Int32 40 "").1 = false ↔
      (TypeManager.new.isDefined "al40" = true ∨
        (40 : Int) >
          (mapFind TypeManager.new.primitivesizes Primitive.Int32).getD 0)) :=
  (claim_C5.1 TypeManager.new "al40" Primitive.Int32 40 "" (by decide)).1

/-- Claim C6: `AddMember(parent, name, type, offset, arrsize)` fails
exactly when the parent aggregate is unknown, the array count is
negative, the member type is not defined, the member name already exists
in the parent, or — in the auto-offset case — the parent already has
members and its computed size is 0; a failed call leaves the registry
(in particular the parent's member list) unchanged. -/
theorem claim_C6 :
    (∀ (tm : TypeManager) (p n t : String) (o a : Int),
      mapFind tm.structs p = none →
      tm.AddMember p n t o a = (false, tm)) ∧
    (∀ (tm : TypeManager) (p n t : String) (o a : Int) (s : StructUnion),
      mapFind tm.structs p = some s →
      ((tm.AddMember p n t o a).1 = false ↔
        a < 0 ∨ tm.isDefined t = false ∨
        (s.members.any fun member => member.name == n) = true ∨
        (o < 0 ∧ s.members ≠ [] ∧ (tm.getSizeof p 0).1 = 0))) ∧
    (∀ (tm : TypeManager) (p n t : String) (o a : Int),
      (tm.AddMember p n t o a).1 = false →
      (tm.AddMember p n t o a).2 = tm) := by
  refine ⟨?_, ?_, addMember_fail_frame⟩
  · intro tm p n t o a h
    rw [TypeManager.AddMember, h]
  · intro tm p n t o a s hf
    rw [addMember_spec tm p n t o a s hf]
    split_ifs <;>
      first
        | exact ⟨fun _ => by tauto, fun _ => rfl⟩
        | exact ⟨fun h => absurd h (by simp), fun hD => absurd hD (by tauto)⟩

/-- Witness for C6 at a concrete input: adding a second member named `a`
to the P4 struct fails precisely because the name already exists. -/
theorem claim_C6_witness :
    ((packedStruct.AddMember "S" "a" "int8" (-1) 0).1 = false ↔
      ((0 : Int) < 0 ∨ packedStruct.isDefined "int8" = false ∨
        (([{ name := "a", type := "int32", offset := 0, arrsize := 0 },
           { name := "b", type := "int64", offset := 8, arrsize := 0 }] :
            List Member).any fun member => member.name == "a") = true ∨
        ((-1 : Int) < 0 ∧
          ([{ name := "a", type := "int32", offset := 0, arrsize := 0 },
            { name := "b", type := "int64", offset := 8, arrsize := 0 }] :
             List Member) ≠ [] ∧
          (packedStruct.getSizeof "S" 0).1 = 0))) :=
  claim_C6.2.1 packedStruct "S" "a" "int8" (-1) 0
    { isunion := false, alignment := 8, name := "S",
      members := [{ name := "a", type := "int32", offset := 0, arrsize := 0 },
                  { name := "b", type := "int64", offset := 8, arrsize := 0 }] }
    (by decide)

/-- Witness for C10 at a concrete input: appending the invalid member
record to struct `S` succeeds and stores it verbatim. -/
theorem claim_C10_witness :
    (structSa.AddMemberRecord "S" badMember).1 = true ∧
    mapFind (structSa.AddMemberRecord "S" badMember).2.structs "S" =
      some { isunion := false, alignment := 8, name := "S",
             members := [{ name := "a", type := "int8", offset := 0,
                           arrsize := 0 }] ++ [badMember] } :=
  claim_C10.1 structSa "S" badMember
    { isunion := false, alignment := 8, name := "S",
      members := [{ name := "a", type := "int8", offset := 0, arrsize := 0 }] }
    (by decide)

end Types
